import Mathlib

/-!
Verification of the canvas-slideshow playback/transition engine
(src/Slideshow.ts) against its natural-language specification.

The TypeScript classes are shallowly embedded as Lean structures and pure
functions.  DOM presentation details (CSS classes, button labels / innerText)
are out of scope per the spec; only the boolean control state (`isEnabled`,
`state`), the timer-handle discipline, the playback counter arithmetic and the
per-tick drawing behaviour of the transition effects are modelled, each
translated directly from the corresponding TypeScript function.

Units: canvas `globalAlpha` values are modelled in exact thousandths
(1.0 -> 1000, the fade step 0.008 -> 8, the 0.1 threshold -> 100), so the
fade arithmetic is exact.
-/

set_option maxHeartbeats 1000000

/-- Embeds class `ControlElement` (Slideshow.ts:1027-1139): a control button
with an availability flag `isEnabled` and an activation flag `state`.
DOM element and CSS-class bookkeeping are presentation, not modelled. -/
structure ControlElement where
  isEnabled : Bool
  state : Bool
  deriving DecidableEq, Repr

/-- Embeds `ControlElement.toggle` (Slideshow.ts:1069-1086): flips `state` and
returns the new state, but only when the button is enabled; when disabled it
returns `false` and changes nothing. -/
def ControlElement.toggle (c : ControlElement) : Bool × ControlElement :=
  if c.isEnabled then
    if c.state then (false, { c with state := false })
    else (true, { c with state := true })
  else (false, c)

/-- Embeds `ControlElement.toggleEnabled` (Slideshow.ts:1091-1105): flips the
`isEnabled` flag; when disabling a button whose action is active, the action
is first toggled off (disabled is mutually exclusive with active state). -/
def ControlElement.toggleEnabled (c : ControlElement) : Bool × ControlElement :=
  if c.isEnabled then
    let c1 := if c.state then (ControlElement.toggle c).2 else c
    (false, { c1 with isEnabled := false })
  else
    (true, { c with isEnabled := true })

/-- Embeds `ControlElement.getState` (Slideshow.ts:1121-1124). -/
def ControlElement.getState (c : ControlElement) : Bool :=
  c.state

/-- Embeds `ControlElement.isActive` (Slideshow.ts:1126-1129), which returns
the `isEnabled` flag. -/
def ControlElement.isActive (c : ControlElement) : Bool :=
  c.isEnabled

/-- Embeds class `ControlsManager` (Slideshow.ts:1144-1275): the bundle of
control buttons.  The effect selector carries no queried state and is omitted. -/
structure ControlsManager where
  playButton : ControlElement
  directionButton : ControlElement
  randomButton : ControlElement
  nextButton : ControlElement
  previousButton : ControlElement
  fullScreenButton : ControlElement
  deriving DecidableEq, Repr

/-- Embeds `ControlsManager.isPlaying` (Slideshow.ts:1253-1256). -/
def ControlsManager.isPlaying (m : ControlsManager) : Bool :=
  m.playButton.getState

/-- Embeds `ControlsManager.isRandom` (Slideshow.ts:1259-1262). -/
def ControlsManager.isRandom (m : ControlsManager) : Bool :=
  m.randomButton.getState

/-- Embeds `ControlsManager.isReversed` (Slideshow.ts:1265-1268). -/
def ControlsManager.isReversed (m : ControlsManager) : Bool :=
  m.directionButton.getState

/-- Embeds `ControlsManager.togglePlay` (Slideshow.ts:1182-1212): toggles the
play button, then forces the random and direction buttons enabled exactly when
the show is playing and disabled otherwise (disabling an active button also
clears its state, via `toggleEnabled`). -/
def ControlsManager.togglePlay (m : ControlsManager) : Bool × ControlsManager :=
  let m1 := { m with playButton := (m.playButton.toggle).2 }
  let playing := m1.isPlaying
  let randomEnabled := m1.randomButton.isActive
  let directionEnabled := m1.directionButton.isActive
  let m2 :=
    if playing then
      let ma := if !randomEnabled then
          { m1 with randomButton := (m1.randomButton.toggleEnabled).2 } else m1
      if !directionEnabled then
        { ma with directionButton := (ma.directionButton.toggleEnabled).2 } else ma
    else
      let ma := if randomEnabled then
          { m1 with randomButton := (m1.randomButton.toggleEnabled).2 } else m1
      if directionEnabled then
        { ma with directionButton := (ma.directionButton.toggleEnabled).2 } else ma
  (playing, m2)

/-- Embeds `ControlsManager.toggleDirection` (Slideshow.ts:1217-1223): toggles
the direction button (a no-op on state when it is disabled) and returns the
resulting `isReversed` value. -/
def ControlsManager.toggleDirection (m : ControlsManager) : Bool × ControlsManager :=
  let m1 := { m with directionButton := (m.directionButton.toggle).2 }
  (m1.isReversed, m1)

/-- Embeds `ControlsManager.toggleRandom` (Slideshow.ts:1231-1243): toggles the
random button, then unconditionally flips the enabled state of the previous,
next and direction buttons. -/
def ControlsManager.toggleRandom (m : ControlsManager) : Bool × ControlsManager :=
  let r := (m.randomButton.toggle).1
  let m1 := { m with randomButton := (m.randomButton.toggle).2 }
  let m2 := { m1 with previousButton := (m1.previousButton.toggleEnabled).2 }
  let m3 := { m2 with nextButton := (m2.nextButton.toggleEnabled).2 }
  let m4 := { m3 with directionButton := (m3.directionButton.toggleEnabled).2 }
  (r, m4)

/-- The control state built by `setupControls` (Slideshow.ts:433-531): every
`ControlElement` is constructed with `enabled = true` and `state = false`. -/
def initControls : ControlsManager :=
  { playButton := ⟨true, false⟩
    directionButton := ⟨true, false⟩
    randomButton := ⟨true, false⟩
    nextButton := ⟨true, false⟩
    previousButton := ⟨true, false⟩
    fullScreenButton := ⟨true, false⟩ }

/-- Embeds the target computation of `drawNextSlide` (Slideshow.ts:324-332):
increment `imageCounter`, wrapping to 0 past the end of the image array. -/
def nextSlideIndex (imageCounter : ℤ) (len : ℕ) : ℤ :=
  if (len : ℤ) ≤ imageCounter + 1 then 0 else imageCounter + 1

/-- Embeds the target computation of `drawPreviousSlide` (Slideshow.ts:339-347):
decrement `imageCounter`, wrapping to `len - 1` below 0. -/
def prevSlideIndex (imageCounter : ℤ) (len : ℕ) : ℤ :=
  if imageCounter - 1 < 0 then (len : ℤ) - 1 else imageCounter - 1

/-- The mutual-exclusion relation the specification claims between the random
toggle and the manual previous/next/direction controls: the three manual
controls are enabled exactly when random mode is off. -/
def RandomExclusion (m : ControlsManager) : Prop :=
  m.previousButton.isEnabled = !m.randomButton.state ∧
  m.nextButton.isEnabled = !m.randomButton.state ∧
  m.directionButton.isEnabled = !m.randomButton.state

/-- The browser timer pool, restricted to the `setInterval` handles the
slideshow manages through its `interval` field: `live` is the list of interval
ids still scheduled, `held` is the current value of `this.interval`
(0 before any timer is created, as in the source), and `fresh` is the next id
the host would hand out (browser interval ids are positive). -/
structure TimerState where
  live : List ℕ
  held : ℕ
  fresh : ℕ
  deriving DecidableEq, Repr

/-- Effect of `clearInterval(this.interval)`: the held id stops being live
(clearing id 0, which is never issued, is a no-op, as in the browser). -/
def clearIntervalOp (s : TimerState) : TimerState :=
  { s with live := s.live.filter (fun id => id ≠ s.held) }

/-- Effect of `this.interval = setInterval(...)`: a fresh id becomes live and
is stored in the `interval` field. -/
def setIntervalOp (s : TimerState) : TimerState :=
  { live := s.live ++ [s.fresh], held := s.fresh, fresh := s.fresh + 1 }

/-- Timer pool at startup: no live interval, `this.interval = 0`. -/
def initTimers : TimerState :=
  { live := [], held := 0, fresh := 1 }

/-- The Active Effect selected through `effectCallback`
(Slideshow.ts:969-1014): the drawing function currently installed. -/
inductive Effect where
  | none
  | fade
  | slideAcross
  | slideVertically
  deriving DecidableEq, Repr

/-- Timer action performed when the current drawing function is invoked with a
target index: the plain draw (`drawSlide`) touches no timer; each animated
transition (`fadeTransition` Slideshow.ts:620-671, `horizontalTransition`
Slideshow.ts:687-748, `verticalTransition` Slideshow.ts:758-821) first clears
the held interval and then installs its animation interval. -/
def effectTimerAction (e : Effect) (t : TimerState) : TimerState :=
  match e with
  | Effect.none => t
  | _ => setIntervalOp (clearIntervalOp t)

/-- The timer-relevant operations of the engine, one constructor per code
path that can touch the `interval` field, with the booleans that select the
path as parameters.  Derived from: `resumeSlideShow` (Slideshow.ts:296-317),
the three transitions, `randomCallback` (Slideshow.ts:855-870), `playCallback`
(Slideshow.ts:826-834) and `nextCallback`/`previousCallback`
(Slideshow.ts:876-899). -/
inductive TimerOp where
  | resumeShow
  | autoplayTick (e : Effect)
  | fadeOutTick
  | fadePhaseSwitch
  | fadeInTick
  | fadeComplete (playing : Bool)
  | horizStart
  | horizTick
  | horizComplete (playing : Bool)
  | vertStart
  | vertTick
  | vertComplete (playing : Bool)
  | randomToggle
  | randomTick (randomState : Bool) (e : Effect)
  | playToggle (nowPlaying : Bool)
  | nextPress (isRandom : Bool) (e : Effect)
  | prevPress (isRandom : Bool) (e : Effect)
  deriving DecidableEq, Repr

/-- Timer effect of each operation, read off the corresponding source lines:
`resumeSlideShow` clears then sets (ts:298,303); an autoplay tick dispatches
the drawing function whatever branch is taken (ts:306-314); fade ticks draw
only, the fade phase switch clears then sets (ts:646,649); a completed
animation clears its interval and, if still playing, calls `resumeSlideShow`
(ts:662-664, 739-745, 811-817); `randomCallback` clears then sets
(ts:859,862) and its tick either dispatches the drawing function or calls
`resumeSlideShow` (ts:863-867); `playCallback` clears, or resumes, depending
on the new play state (ts:830-833); `nextCallback`/`previousCallback` do
nothing in random mode, else clear and dispatch the drawing function
(ts:878-884, 892-898). -/
def applyTimerOp (op : TimerOp) (t : TimerState) : TimerState :=
  match op with
  | TimerOp.resumeShow => setIntervalOp (clearIntervalOp t)
  | TimerOp.autoplayTick e => effectTimerAction e t
  | TimerOp.fadeOutTick => t
  | TimerOp.fadePhaseSwitch => setIntervalOp (clearIntervalOp t)
  | TimerOp.fadeInTick => t
  | TimerOp.fadeComplete playing =>
      if playing then setIntervalOp (clearIntervalOp (clearIntervalOp t))
      else clearIntervalOp t
  | TimerOp.horizStart => setIntervalOp (clearIntervalOp t)
  | TimerOp.horizTick => t
  | TimerOp.horizComplete playing =>
      if playing then setIntervalOp (clearIntervalOp (clearIntervalOp t))
      else clearIntervalOp t
  | TimerOp.vertStart => setIntervalOp (clearIntervalOp t)
  | TimerOp.vertTick => t
  | TimerOp.vertComplete playing =>
      if playing then setIntervalOp (clearIntervalOp (clearIntervalOp t))
      else clearIntervalOp t
  | TimerOp.randomToggle => setIntervalOp (clearIntervalOp t)
  | TimerOp.randomTick randomState e =>
      if randomState then effectTimerAction e t
      else setIntervalOp (clearIntervalOp t)
  | TimerOp.playToggle nowPlaying =>
      if nowPlaying then setIntervalOp (clearIntervalOp t)
      else clearIntervalOp t
  | TimerOp.nextPress isRandom e =>
      if isRandom then t else effectTimerAction e (clearIntervalOp t)
  | TimerOp.prevPress isRandom e =>
      if isRandom then t else effectTimerAction e (clearIntervalOp t)

/-- Run a sequence of timer-relevant operations from a starting timer pool. -/
def runTimerOps (ops : List TimerOp) (t : TimerState) : TimerState :=
  ops.foldl (fun s op => applyTimerOp op s) t

/-- Single-timer discipline: the live intervals are at most the held one. -/
def TimerInv (s : TimerState) : Prop :=
  s.live = [] ∨ s.live = [s.held]

/-- Scheduler-level state: control state, timer pool, the playback position
`imageCounter`, the image-store length, the Active Effect, and the target a
running animated transition will commit on completion (held in the transition
closure in the source). -/
structure SlideshowState where
  controls : ControlsManager
  timers : TimerState
  imageCounter : ℤ
  numImages : ℕ
  effect : Effect
  pendingTarget : Option ℤ
  deriving DecidableEq, Repr

/-- Dispatch of `drawingFunction(nextCounter)` (Slideshow.ts:330, 346):
with no effect selected the plain `drawSlide` runs synchronously and commits
the counter (ts:371-388); an animated transition clears the held interval,
installs its animation interval and only commits the counter later, at its
completion point. -/
def dispatchDrawing (s : SlideshowState) (target : ℤ) : SlideshowState :=
  match s.effect with
  | Effect.none => { s with imageCounter := target, pendingTarget := Option.none }
  | _ => { s with timers := setIntervalOp (clearIntervalOp s.timers)
                  pendingTarget := some target }

/-- Embeds `nextCallback` (Slideshow.ts:876-885): in random mode it does
nothing; otherwise it clears the interval, pauses via `togglePlay` if playing,
and draws the next slide through the current drawing function. -/
def nextCallback (s : SlideshowState) : SlideshowState :=
  if s.controls.isRandom then s
  else
    let s1 := { s with timers := clearIntervalOp s.timers }
    let s2 := if s1.controls.isPlaying then
        { s1 with controls := (s1.controls.togglePlay).2 } else s1
    dispatchDrawing s2 (nextSlideIndex s2.imageCounter s2.numImages)

/-- Embeds `previousCallback` (Slideshow.ts:890-899): as `nextCallback` but
drawing the previous slide. -/
def previousCallback (s : SlideshowState) : SlideshowState :=
  if s.controls.isRandom then s
  else
    let s1 := { s with timers := clearIntervalOp s.timers }
    let s2 := if s1.controls.isPlaying then
        { s1 with controls := (s1.controls.togglePlay).2 } else s1
    dispatchDrawing s2 (prevSlideIndex s2.imageCounter s2.numImages)

/-- Embeds `directionCallback` (Slideshow.ts:843-847): toggles the direction
control, then unconditionally calls `resumeSlideShow`, which clears the held
interval and installs a fresh autoplay interval. -/
def directionCallback (s : SlideshowState) : SlideshowState :=
  let s1 := { s with controls := (s.controls.toggleDirection).2 }
  { s1 with timers := setIntervalOp (clearIntervalOp s1.timers) }

/-- Control state right after startup: `handleImageLoad` (Slideshow.ts:120)
calls `togglePlay()` once on the freshly constructed controls. -/
def playingControls : ControlsManager :=
  (initControls.togglePlay).2

/-- Control state after the user additionally presses the random toggle:
random mode on, previous/next/direction disabled. -/
def randomModeControls : ControlsManager :=
  (playingControls.toggleRandom).2

/-- Control state after startup followed by one pause press: not playing,
random and direction controls disabled. -/
def pausedControls : ControlsManager :=
  (playingControls.togglePlay).2

/-- A playing state with the fade effect selected, an autoplay interval live
(id 5) and the counter on slide 0 of 3. -/
def fadeNextState : SlideshowState :=
  { controls := playingControls
    timers := ⟨[5], 5, 6⟩
    imageCounter := 0
    numImages := 3
    effect := Effect.fade
    pendingTarget := Option.none }

/-- A random-mode state with a live random-mode interval (id 7). -/
def randomNextState : SlideshowState :=
  { controls := randomModeControls
    timers := ⟨[7], 7, 8⟩
    imageCounter := 0
    numImages := 3
    effect := Effect.none
    pendingTarget := Option.none }

/-- A paused, idle state: no live interval, direction control disabled. -/
def pausedIdleState : SlideshowState :=
  { controls := pausedControls
    timers := ⟨[], 9, 10⟩
    imageCounter := 1
    numImages := 3
    effect := Effect.none
    pendingTarget := Option.none }

/-- Fade-out phase of `fadeTransition` (Slideshow.ts:633-640), alpha in
thousandths: while `globalAlpha >= 0.1` (100), the current slide is redrawn at
the current alpha and alpha is decreased by `fadeStep` (8).  Returns the list
of alpha values at which frames were drawn and the final alpha. -/
def fadeOutRun (a : ℕ) : List ℕ × ℕ :=
  if h : 100 ≤ a then
    let p := fadeOutRun (a - 8)
    (a :: p.1, p.2)
  else ([], a)
  termination_by a
  decreasing_by omega

/-- Fade-in phase of `fadeTransition` (Slideshow.ts:649-667), alpha in
thousandths: while `globalAlpha < 1.0` (1000), the new slide is redrawn at the
current alpha and alpha is increased by `fadeStep` (8).  Returns the list of
alpha values at which frames were drawn and the final alpha. -/
def fadeInRun (a : ℕ) : List ℕ × ℕ :=
  if h : a < 1000 then
    let p := fadeInRun (a + 8)
    (a :: p.1, p.2)
  else ([], a)
  termination_by 1000 - a
  decreasing_by omega

/-- One full invocation of `fadeTransition` (Slideshow.ts:620-671): fade the
current image out, commit `imageCounter = nextCounter` at the phase switch
(ts:647; the fade-in redraws `this.imageCounter`, which no longer changes),
then fade the new image in.  Returns the drawn alpha sequences of the two
phases, the final alpha and the final `imageCounter`. -/
def fadeTransitionRun (alpha : ℕ) (nextCounter : ℤ) :
    (List ℕ × List ℕ) × (ℕ × ℤ) :=
  let fo := fadeOutRun alpha
  let fi := fadeInRun fo.2
  ((fo.1, fi.1), (fi.2, nextCounter))

/-- The per-tick offsets at which the slide transitions draw
(Slideshow.ts:713-747 and 785-819): each tick draws at the current `offset`,
adds `increment` (3), and stops once `offset >= limit` where
`limit = extent + increment`. -/
def slideOffsets (limit off : ℕ) : List ℕ :=
  if h : off + 3 < limit then off :: slideOffsets limit (off + 3)
  else [off]
  termination_by limit - off
  decreasing_by omega

/-- Offsets drawn by `horizontalTransition` (Slideshow.ts:687-748):
`limit = imgWidth + increment`, offset starting at 0. -/
def horizontalOffsets (imgWidth : ℕ) : List ℕ :=
  slideOffsets (imgWidth + 3) 0

/-- Offsets drawn by `verticalTransition` (Slideshow.ts:758-821):
`limit = imgHeight + increment`, offset starting at 0. -/
def verticalOffsets (imgHeight : ℕ) : List ℕ :=
  slideOffsets (imgHeight + 3) 0

/-- Rendered x-origin of the outgoing image on each tick of
`horizontalTransition` (ts:719): the context is translated by `-offset` when
`forward` and by `+offset` otherwise, and the image is drawn at local (0,0). -/
def horizontalOrigins (forward : Bool) (imgWidth : ℕ) : List ℤ :=
  (horizontalOffsets imgWidth).map
    (fun o : ℕ => if forward then -(o : ℤ) else (o : ℤ))

/-- Rendered y-origin of the outgoing image on each tick of
`verticalTransition` (ts:791): the context is translated by `+offset` when
`forward` (the outgoing image is pushed down) and by `-offset` otherwise. -/
def verticalOrigins (forward : Bool) (imgHeight : ℕ) : List ℤ :=
  (verticalOffsets imgHeight).map
    (fun o : ℕ => if forward then (o : ℤ) else -(o : ℤ))

/-- The drawing-context operations a slide transition issues, as far as
save/restore balance is concerned. -/
inductive CanvasOp where
  | save
  | clearRect
  | translate
  | drawImage
  | restore
  deriving DecidableEq, Repr

/-- Context operations of one animation tick of `horizontalTransition`
(Slideshow.ts:715-733) and `verticalTransition` (ts:787-805): save, clear,
translate, draw the outgoing image, translate, draw the incoming image,
restore. -/
def slideTickOps : List CanvasOp :=
  [CanvasOp.save, CanvasOp.clearRect, CanvasOp.translate, CanvasOp.drawImage,
   CanvasOp.translate, CanvasOp.drawImage, CanvasOp.restore]

/-- Context operations of the whole tick loop of a slide transition: one tick
per entry of `slideOffsets`. -/
def slideLoopOps (limit off : ℕ) : List CanvasOp :=
  if h : off + 3 < limit then slideTickOps ++ slideLoopOps limit (off + 3)
  else slideTickOps
  termination_by limit - off
  decreasing_by omega

/-- All context operations of one `horizontalTransition` invocation: the
initial `context.save()` (Slideshow.ts:710) followed by the tick loop. -/
def horizontalTransitionOps (imgWidth : ℕ) : List CanvasOp :=
  CanvasOp.save :: slideLoopOps (imgWidth + 3) 0

/-- All context operations of one `verticalTransition` invocation: the
initial `context.save()` (Slideshow.ts:782) followed by the tick loop. -/
def verticalTransitionOps (imgHeight : ℕ) : List CanvasOp :=
  CanvasOp.save :: slideLoopOps (imgHeight + 3) 0

/-- Number of `save()` calls in a context-operation trace. -/
def countSaves : List CanvasOp → ℕ
  | [] => 0
  | CanvasOp.save :: rest => countSaves rest + 1
  | _ :: rest => countSaves rest

/-- Number of `restore()` calls in a context-operation trace. -/
def countRestores : List CanvasOp → ℕ
  | [] => 0
  | CanvasOp.restore :: rest => countRestores rest + 1
  | _ :: rest => countRestores rest

/-- An entry of the image store: an `Image` object with source, alt text
(the caption) and its load flag. -/
structure ImageRec where
  src : String
  alt : String
  complete : Bool
  deriving DecidableEq, Repr

/-- Observable state touched by `drawSlide`: the playback counter, what the
canvas shows, the caption element, and the console log. -/
structure DrawState where
  imageCounter : ℤ
  canvasImage : Option ℤ
  caption : Option String
  log : List String
  deriving DecidableEq, Repr

/-- The try-block of `drawSlide` (Slideshow.ts:375-383) as a fallible
computation: accessing `images[slide]` out of range throws (the array slot is
undefined), and any other drawing-time fault of the surface (an image not yet
loaded, a canvas error) is modelled by the `drawFault` flag.  On success it
yields the drawn index and the caption text. -/
def drawSlideBody (images : List ImageRec) (drawFault : Bool) (slide : ℤ) :
    Except String (ℤ × String) :=
  if drawFault then Except.error "draw fault"
  else if h : 0 ≤ slide ∧ slide.toNat < images.length then
    Except.ok (slide, (images.get ⟨slide.toNat, h.2⟩).alt)
  else Except.error "image undefined"

/-- Embeds `drawSlide` (Slideshow.ts:371-388): `imageCounter` is assigned the
target index before the try-block, and the catch clause converts any fault of
the body into a console log entry, so the function is total. -/
def drawSlide (images : List ImageRec) (drawFault : Bool) (st : DrawState)
    (slide : ℤ) : DrawState :=
  let st1 := { st with imageCounter := slide }
  match drawSlideBody images drawFault slide with
  | Except.ok r =>
      { st1 with canvasImage := some r.1, caption := some r.2,
                 log := st1.log ++ ["drawn"] }
  | Except.error e => { st1 with log := st1.log ++ [e] }

/-- Claim C5: for every image-store length at least 1 and every valid
`currentIndex`, a forward advance from index `length - 1` yields 0, a backward
advance from index 0 yields `length - 1`, and all other advances increment or
decrement by exactly 1 (per `drawNextSlide` and `drawPreviousSlide`). -/
theorem c5_wraparound (len : ℕ) (i : ℤ) (hlen : 1 ≤ len) (h0 : 0 ≤ i)
    (hi : i < (len : ℤ)) :
    (i = (len : ℤ) - 1 → nextSlideIndex i len = 0) ∧
    (i < (len : ℤ) - 1 → nextSlideIndex i len = i + 1) ∧
    (i = 0 → prevSlideIndex i len = (len : ℤ) - 1) ∧
    (0 < i → prevSlideIndex i len = i - 1) := by
  unfold nextSlideIndex prevSlideIndex
  refine ⟨?_, ?_, ?_, ?_⟩ <;> intro h <;> split <;> omega

/-- Witness for C5: with 3 images, a forward advance from index 2 yields 0. -/
theorem c5_wraparound_witness :
    1 ≤ 3 ∧ 0 ≤ (2 : ℤ) ∧ (2 : ℤ) < (3 : ℕ) ∧ nextSlideIndex 2 3 = 0 := by
  refine ⟨by decide, by decide, by decide, ?_⟩
  exact (c5_wraparound 3 2 (by decide) (by decide) (by decide)).1 (by decide)

/-- Claim C3 fails on the code: from the startup state, the toggle sequence
togglePlay; toggleRandom; togglePlay; togglePlay (enter play, enter random,
pause, resume) ends with random mode off but the previous and next buttons
still disabled, because pausing disables the random button, which silently
clears the random state without re-enabling the manual navigation buttons. -/
theorem c3_counterexample :
    ((((((initControls.togglePlay).2.toggleRandom).2.togglePlay).2.togglePlay).2.randomButton.state
        = false) ∧
     ((((initControls.togglePlay).2.toggleRandom).2.togglePlay).2.togglePlay).2.nextButton.isEnabled
        = false ∧
     ((((initControls.togglePlay).2.toggleRandom).2.togglePlay).2.togglePlay).2.previousButton.isEnabled
        = false) := by
  decide

/-- Claim C3 as amended: the mutual exclusion between random mode and the
previous/next/direction controls is preserved by every `toggleRandom` call made
while the random button is enabled; it is not preserved across interleaved
`togglePlay` calls, since pausing in random mode clears the random state
without re-enabling the manual controls. -/
theorem c3_random_exclusion (m : ControlsManager)
    (henabled : m.randomButton.isEnabled = true) (hinv : RandomExclusion m) :
    RandomExclusion (m.toggleRandom).2 := by
  obtain ⟨⟨pe, ps⟩, ⟨de, ds⟩, ⟨re, rs⟩, ⟨ne, ns⟩, ⟨ve, vs⟩, ⟨fe, fs⟩⟩ := m
  revert henabled hinv
  unfold RandomExclusion
  cases pe <;> cases ps <;> cases de <;> cases ds <;> cases re <;> cases rs <;>
    cases ne <;> cases ns <;> cases ve <;> cases vs <;> cases fe <;> cases fs <;> decide

/-- Witness for C3's amended theorem: from the startup controls (random button
enabled, mutual exclusion holding), one `toggleRandom` preserves the mutual
exclusion. -/
theorem c3_random_exclusion_witness :
    initControls.randomButton.isEnabled = true ∧ RandomExclusion initControls ∧
      RandomExclusion (initControls.toggleRandom).2 := by
  refine ⟨by decide, ⟨by decide, by decide, by decide⟩, ?_⟩
  exact c3_random_exclusion initControls (by decide) ⟨by decide, by decide, by decide⟩

/-- Claim C4 fails on the code: in the reachable state reached by
togglePlay; toggleRandom from startup (playing, random mode on, direction
button disabled), calling `togglePlay` twice leaves the direction button
enabled, not disabled as it originally was: the double toggle forces the
enabled flags to the playing-derived rule instead of restoring them. -/
theorem c4_counterexample :
    (((initControls.togglePlay).2.toggleRandom).2.directionButton.isEnabled = false) ∧
    ((((((initControls.togglePlay).2.toggleRandom).2.togglePlay).2.togglePlay).2.directionButton.isEnabled)
      = true) := by
  decide

/-- Claim C4 as amended: `togglePlay` called twice restores the original
`playing` value, and restores the enabled state of the random and direction
controls provided those enabled states initially agree with the
playing-derived rule (enabled exactly when playing), which the counterexample
shows is necessary. -/
theorem c4_double_toggle (m : ControlsManager)
    (hplay : m.playButton.isEnabled = true)
    (hrand : m.randomButton.isEnabled = m.playButton.state)
    (hdir : m.directionButton.isEnabled = m.playButton.state) :
    (((m.togglePlay).2.togglePlay).2.playButton.state = m.playButton.state) ∧
    (((m.togglePlay).2.togglePlay).2.randomButton.isEnabled = m.randomButton.isEnabled) ∧
    (((m.togglePlay).2.togglePlay).2.directionButton.isEnabled = m.directionButton.isEnabled) := by
  obtain ⟨⟨pe, ps⟩, ⟨de, ds⟩, ⟨re, rs⟩, ⟨ne, ns⟩, ⟨ve, vs⟩, ⟨fe, fs⟩⟩ := m
  revert hplay hrand hdir
  cases pe <;> cases ps <;> cases de <;> cases ds <;> cases re <;> cases rs <;>
    cases ne <;> cases ns <;> cases ve <;> cases vs <;> cases fe <;> cases fs <;> decide

/-- Witness for C4's amended theorem: in the startup state after the initial
`togglePlay` (playing, random and direction enabled), a double `togglePlay`
restores the playing flag and both enabled flags. -/
theorem c4_double_toggle_witness :
    ((initControls.togglePlay).2.playButton.isEnabled = true) ∧
    ((initControls.togglePlay).2.randomButton.isEnabled = (initControls.togglePlay).2.playButton.state) ∧
    ((initControls.togglePlay).2.directionButton.isEnabled = (initControls.togglePlay).2.playButton.state) ∧
    ((((initControls.togglePlay).2.togglePlay).2.togglePlay).2.playButton.state
      = (initControls.togglePlay).2.playButton.state) := by
  refine ⟨by decide, by decide, by decide, ?_⟩
  exact (c4_double_toggle (initControls.togglePlay).2 (by decide) (by decide) (by decide)).1

/-- Helper: under the single-timer discipline, clearing the held interval
leaves no live interval at all. -/
theorem clearIntervalOp_live_nil (t : TimerState) (h : TimerInv t) :
    (clearIntervalOp t).live = [] := by
  rcases h with h | h <;> simp [clearIntervalOp, h]

/-- Helper: the single-timer discipline survives a clear. -/
theorem timerInv_clear (t : TimerState) (h : TimerInv t) :
    TimerInv (clearIntervalOp t) := by
  exact Or.inl (clearIntervalOp_live_nil t h)

/-- Helper: installing a new interval into a pool with no live interval
restores the single-timer discipline. -/
theorem timerInv_set_of_nil (t : TimerState) (h : t.live = []) :
    TimerInv (setIntervalOp t) := by
  refine Or.inr ?_
  simp [setIntervalOp, h]

/-- Helper: the clear-before-set pattern used by every scheduling site
preserves the single-timer discipline. -/
theorem timerInv_clearSet (t : TimerState) (h : TimerInv t) :
    TimerInv (setIntervalOp (clearIntervalOp t)) := by
  exact timerInv_set_of_nil _ (clearIntervalOp_live_nil t h)

/-- Helper: dispatching the current drawing function preserves the
single-timer discipline. -/
theorem timerInv_effectAction (e : Effect) (t : TimerState) (h : TimerInv t) :
    TimerInv (effectTimerAction e t) := by
  cases e <;> simp only [effectTimerAction] <;>
    first
      | exact h
      | exact timerInv_clearSet t h

/-- Helper: every timer-relevant operation of the engine preserves the
single-timer discipline. -/
theorem timerInv_applyOp (op : TimerOp) (t : TimerState) (h : TimerInv t) :
    TimerInv (applyTimerOp op t) := by
  cases op with
  | resumeShow => exact timerInv_clearSet t h
  | autoplayTick e => exact timerInv_effectAction e t h
  | fadeOutTick => exact h
  | fadePhaseSwitch => exact timerInv_clearSet t h
  | fadeInTick => exact h
  | fadeComplete playing =>
      cases playing <;> simp only [applyTimerOp, if_true, if_false]
      · exact timerInv_clear t h
      · exact timerInv_clearSet _ (timerInv_clear t h)
  | horizStart => exact timerInv_clearSet t h
  | horizTick => exact h
  | horizComplete playing =>
      cases playing <;> simp only [applyTimerOp, if_true, if_false]
      · exact timerInv_clear t h
      · exact timerInv_clearSet _ (timerInv_clear t h)
  | vertStart => exact timerInv_clearSet t h
  | vertTick => exact h
  | vertComplete playing =>
      cases playing <;> simp only [applyTimerOp, if_true, if_false]
      · exact timerInv_clear t h
      · exact timerInv_clearSet _ (timerInv_clear t h)
  | randomToggle => exact timerInv_clearSet t h
  | randomTick randomState e =>
      cases randomState <;> simp only [applyTimerOp, if_true, if_false]
      · exact timerInv_clearSet t h
      · exact timerInv_effectAction e t h
  | playToggle nowPlaying =>
      cases nowPlaying <;> simp only [applyTimerOp, if_true, if_false]
      · exact timerInv_clear t h
      · exact timerInv_clearSet t h
  | nextPress isRandom e =>
      cases isRandom <;> simp only [applyTimerOp, if_true, if_false]
      · exact timerInv_effectAction e _ (timerInv_clear t h)
      · exact h
  | prevPress isRandom e =>
      cases isRandom <;> simp only [applyTimerOp, if_true, if_false]
      · exact timerInv_effectAction e _ (timerInv_clear t h)
      · exact h

/-- Helper: the single-timer discipline is preserved along any operation
sequence. -/
theorem timerInv_run (ops : List TimerOp) (t : TimerState) (h : TimerInv t) :
    TimerInv (runTimerOps ops t) := by
  induction ops generalizing t with
  | nil => exact h
  | cons op rest ih =>
      exact ih (applyTimerOp op t) (timerInv_applyOp op t h)

/-- Claim C1: at most one timer handle is ever active.  For every sequence of
the engine's timer-relevant operations (autoplay ticks, the three transition
effects, randomCallback, playCallback, nextCallback/previousCallback), run
from the startup timer pool, any previously held interval is cancelled before
a new one is installed, so the pool never holds two live intervals. -/
theorem c1_single_timer (ops : List TimerOp) :
    ((runTimerOps ops initTimers).live).length ≤ 1 := by
  have h := timerInv_run ops initTimers (Or.inl rfl)
  rcases h with h | h <;> simp [h]

/-- Helper: `togglePlay` only ever writes the play button through
`toggle`, so the resulting play button is the toggled one. -/
theorem togglePlay_playButton (m : ControlsManager) :
    ((m.togglePlay).2).playButton = (m.playButton.toggle).2 := by
  obtain ⟨⟨pe, ps⟩, ⟨de, ds⟩, ⟨re, rs⟩, ⟨ne, ns⟩, ⟨ve, vs⟩, ⟨fe, fs⟩⟩ := m
  cases pe <;> cases ps <;> cases de <;> cases ds <;> cases re <;> cases rs <;>
    cases ne <;> cases ns <;> cases ve <;> cases vs <;> cases fe <;> cases fs <;> decide

/-- Helper: toggling an enabled control flips its state. -/
theorem toggle_state_of_enabled (c : ControlElement) (h : c.isEnabled = true) :
    ((c.toggle).2).state = !c.state := by
  obtain ⟨e, st⟩ := c
  revert h
  cases e <;> cases st <;> decide

/-- Helper: after `togglePlay` on controls whose play button is enabled, the
playing flag is the negation of the previous play-button state. -/
theorem togglePlay_isPlaying (m : ControlsManager)
    (h : m.playButton.isEnabled = true) :
    ((m.togglePlay).2).isPlaying = !m.playButton.state := by
  unfold ControlsManager.isPlaying ControlElement.getState
  rw [togglePlay_playButton]
  exact toggle_state_of_enabled m.playButton h

/-- Helper: behaviour of `nextCallback` outside random mode, with the play
button enabled (it always is: nothing in the engine disables it): the interval
is cleared, playback is forced to paused, the wraparound target is computed,
and the dispatch goes to the currently selected drawing function — the plain
draw commits the counter synchronously with no new timer, while an animated
effect leaves the counter untouched, records the target for its completion
point and installs an animation interval. -/
theorem nextCallback_spec (s : SlideshowState)
    (hrand : s.controls.isRandom = false)
    (hplay : s.controls.playButton.isEnabled = true) :
    (nextCallback s).controls.isPlaying = false ∧
    (s.effect = Effect.none →
       (nextCallback s).imageCounter = nextSlideIndex s.imageCounter s.numImages ∧
       (nextCallback s).timers = clearIntervalOp s.timers) ∧
    (s.effect ≠ Effect.none →
       (nextCallback s).imageCounter = s.imageCounter ∧
       (nextCallback s).pendingTarget = some (nextSlideIndex s.imageCounter s.numImages) ∧
       (nextCallback s).timers = setIntervalOp (clearIntervalOp (clearIntervalOp s.timers))) := by
  unfold nextCallback
  simp only [hrand, Bool.false_eq_true, if_false]
  cases hp : s.controls.isPlaying <;>
    simp only [hp, Bool.false_eq_true, if_false, if_true] <;>
    cases he : s.effect <;>
    simp [dispatchDrawing, he, hp, togglePlay_isPlaying, hplay,
      toggle_state_of_enabled] <;>
    simpa [ControlsManager.isPlaying, ControlElement.getState] using hp

/-- Helper: behaviour of `previousCallback` outside random mode, symmetric to
`nextCallback_spec` with the backward wraparound target. -/
theorem previousCallback_spec (s : SlideshowState)
    (hrand : s.controls.isRandom = false)
    (hplay : s.controls.playButton.isEnabled = true) :
    (previousCallback s).controls.isPlaying = false ∧
    (s.effect = Effect.none →
       (previousCallback s).imageCounter = prevSlideIndex s.imageCounter s.numImages ∧
       (previousCallback s).timers = clearIntervalOp s.timers) ∧
    (s.effect ≠ Effect.none →
       (previousCallback s).imageCounter = s.imageCounter ∧
       (previousCallback s).pendingTarget = some (prevSlideIndex s.imageCounter s.numImages) ∧
       (previousCallback s).timers = setIntervalOp (clearIntervalOp (clearIntervalOp s.timers))) := by
  unfold previousCallback
  simp only [hrand, Bool.false_eq_true, if_false]
  cases hp : s.controls.isPlaying <;>
    simp only [hp, Bool.false_eq_true, if_false, if_true] <;>
    cases he : s.effect <;>
    simp [dispatchDrawing, he, hp, togglePlay_isPlaying, hplay,
      toggle_state_of_enabled] <;>
    simpa [ControlsManager.isPlaying, ControlElement.getState] using hp

/-- Claim C2 fails on the code: with the fade effect selected, a manual next
press does not bypass the animated transition — the counter is not committed
synchronously (it stays 0 rather than becoming 1), an animation interval is
installed, and the target is left pending for the transition; and in random
mode a manual next press is a complete no-op that does not even cancel the
live interval. -/
theorem c2_counterexample :
    ((nextCallback fadeNextState).imageCounter = 0 ∧
     (nextCallback fadeNextState).timers.live = [6] ∧
     (nextCallback fadeNextState).pendingTarget = some 1) ∧
    (nextCallback randomNextState = randomNextState ∧
     randomNextState.timers.live = [7]) := by
  decide

/-- Claim C2 as amended: when random mode is inactive (and the play button
enabled, as it always is), a manual next/previous press cancels the interval,
forces `playing` to false if it was true, computes the target by the
forward/backward wraparound rule, and dispatches to the currently selected
Active Effect: only when no effect is selected is the render the synchronous
plain draw; an animated effect runs its transition (it is not bypassed).  When
random mode is active the press is a no-op. -/
theorem c2_manual_advance (s : SlideshowState)
    (hplay : s.controls.playButton.isEnabled = true) :
    (s.controls.isRandom = true →
       nextCallback s = s ∧ previousCallback s = s) ∧
    (s.controls.isRandom = false →
       ((nextCallback s).controls.isPlaying = false ∧
        (s.effect = Effect.none →
           (nextCallback s).imageCounter = nextSlideIndex s.imageCounter s.numImages ∧
           (nextCallback s).timers = clearIntervalOp s.timers) ∧
        (s.effect ≠ Effect.none →
           (nextCallback s).imageCounter = s.imageCounter ∧
           (nextCallback s).pendingTarget = some (nextSlideIndex s.imageCounter s.numImages) ∧
           (nextCallback s).timers = setIntervalOp (clearIntervalOp (clearIntervalOp s.timers)))) ∧
       ((previousCallback s).controls.isPlaying = false ∧
        (s.effect = Effect.none →
           (previousCallback s).imageCounter = prevSlideIndex s.imageCounter s.numImages ∧
           (previousCallback s).timers = clearIntervalOp s.timers) ∧
        (s.effect ≠ Effect.none →
           (previousCallback s).imageCounter = s.imageCounter ∧
           (previousCallback s).pendingTarget = some (prevSlideIndex s.imageCounter s.numImages) ∧
           (previousCallback s).timers = setIntervalOp (clearIntervalOp (clearIntervalOp s.timers))))) := by
  constructor
  · intro hr
    constructor <;> [unfold nextCallback; unfold previousCallback] <;>
      simp [hr]
  · intro hr
    exact ⟨nextCallback_spec s hr hplay, previousCallback_spec s hr hplay⟩

/-- Witness for C2's amended theorem: in the playing state with the fade
effect selected, a manual next press leaves the engine paused. -/
theorem c2_manual_advance_witness :
    fadeNextState.controls.playButton.isEnabled = true ∧
    fadeNextState.controls.isRandom = false ∧
    (nextCallback fadeNextState).controls.isPlaying = false := by
  refine ⟨by decide, by decide, ?_⟩
  exact (((c2_manual_advance fadeNextState (by decide)).2 (by decide)).1).1

/-- Claim C9 fails on the code: in a paused state with the direction control
disabled and no live timer, pressing the direction toggle is not free of
playback effects — `directionCallback` unconditionally calls
`resumeSlideShow`, which installs a live autoplay interval even though the
engine still reports not playing. -/
theorem c9_counterexample :
    pausedIdleState.controls.directionButton.isEnabled = false ∧
    pausedIdleState.controls.isPlaying = false ∧
    pausedIdleState.timers.live = [] ∧
    (directionCallback pausedIdleState).timers.live = [10] ∧
    (directionCallback pausedIdleState).controls.isPlaying = false := by
  decide

/-- Claim C9 as amended: when the direction control is disabled,
`toggleDirection()` itself is a no-op, never an error — it returns the
unchanged `reversed` value and changes no control state; but the direction
button's click callback still calls `resumeSlideShow`, so the invocation
cancels the held interval and installs a fresh autoplay interval, an
observable playback effect. -/
theorem c9_disabled_direction (s : SlideshowState)
    (hdis : s.controls.directionButton.isEnabled = false) :
    (s.controls.toggleDirection).1 = s.controls.isReversed ∧
    (s.controls.toggleDirection).2 = s.controls ∧
    (directionCallback s).controls = s.controls ∧
    (directionCallback s).timers = setIntervalOp (clearIntervalOp s.timers) := by
  have ht : s.controls.directionButton.toggle = (false, s.controls.directionButton) := by
    unfold ControlElement.toggle
    rw [hdis]
    simp
  unfold directionCallback ControlsManager.toggleDirection ControlsManager.isReversed
    ControlElement.getState
  rw [ht]
  simp

/-- Witness for C9's amended theorem: in the paused idle state the direction
toggle leaves the control state unchanged while the callback installs a fresh
autoplay interval. -/
theorem c9_disabled_direction_witness :
    pausedIdleState.controls.directionButton.isEnabled = false ∧
    (directionCallback pausedIdleState).timers
      = setIntervalOp (clearIntervalOp pausedIdleState.timers) := by
  refine ⟨by decide, ?_⟩
  exact (c9_disabled_direction pausedIdleState (by decide)).2.2.2

/-- Helper: the fade-out loop stops at the first alpha below the 0.1
threshold, and from any alpha at least 0.092 it stops in [0.092, 0.1). -/
theorem fadeOutRun_final (a : ℕ) (h : 92 ≤ a) :
    92 ≤ (fadeOutRun a).2 ∧ (fadeOutRun a).2 < 100 := by
  induction a using Nat.strong_induction_on with
  | _ a ih =>
    rw [fadeOutRun]
    split
    · next h100 =>
      simpa using ih (a - 8) (by omega) (by omega)
    · next h100 =>
      simp only
      omega

/-- Helper: the first frame of the fade-out loop is drawn at the entry
alpha. -/
theorem fadeOutRun_head (a y : ℕ) (h : (fadeOutRun a).1.head? = some y) :
    y = a := by
  rw [fadeOutRun] at h
  split at h
  · simp only [List.head?_cons, Option.some.injEq] at h
    omega
  · simp at h

/-- Helper: the fade-out alphas are drawn in non-increasing order. -/
theorem fadeOutRun_chain (a : ℕ) :
    List.Chain' (fun x y => y ≤ x) (fadeOutRun a).1 := by
  induction a using Nat.strong_induction_on with
  | _ a ih =>
    rw [fadeOutRun]
    split
    · next h100 =>
      simp only
      refine List.chain'_cons'.mpr ⟨?_, ih (a - 8) (by omega)⟩
      intro y hy
      have := fadeOutRun_head (a - 8) y hy
      omega
    · simp

/-- Helper: every fade-out frame is drawn at an alpha at or above the 0.1
threshold. -/
theorem fadeOutRun_mem (a v : ℕ) (hv : v ∈ (fadeOutRun a).1) :
    100 ≤ v ∧ v ≤ a := by
  induction a using Nat.strong_induction_on with
  | _ a ih =>
    rw [fadeOutRun] at hv
    split at hv
    · next h100 =>
      simp only [List.mem_cons] at hv
      rcases hv with rfl | hv
      · omega
      · have := ih (a - 8) (by omega) hv
        omega
    · simp at hv

/-- Helper: the first frame of the fade-in loop is drawn at the entry
alpha. -/
theorem fadeInRun_head (a y : ℕ) (h : (fadeInRun a).1.head? = some y) :
    y = a := by
  rw [fadeInRun] at h
  split at h
  · simp only [List.head?_cons, Option.some.injEq] at h
    omega
  · simp at h

/-- Helper: the fade-in alphas are drawn in non-decreasing order. -/
theorem fadeInRun_chain (a : ℕ) :
    List.Chain' (fun x y => x ≤ y) (fadeInRun a).1 := by
  have H : ∀ (k a : ℕ), 1000 - a ≤ k → List.Chain' (fun x y => x ≤ y) (fadeInRun a).1 := by
    intro k
    induction k with
    | zero =>
      intro a hk
      rw [fadeInRun]
      have hna : ¬ a < 1000 := by omega
      rw [dif_neg hna]
      simp
    | succ k ih =>
      intro a hk
      rw [fadeInRun]
      split
      · next hlt =>
        simp only
        refine List.chain'_cons'.mpr ⟨?_, ih (a + 8) (by omega)⟩
        intro y hy
        have := fadeInRun_head (a + 8) y hy
        omega
      · simp
  exact H 1000 a (by omega)

/-- Helper: every fade-in frame is drawn at or above the entry alpha. -/
theorem fadeInRun_mem (a v : ℕ) (hv : v ∈ (fadeInRun a).1) : a ≤ v := by
  have H : ∀ (k a : ℕ), 1000 - a ≤ k → ∀ v, v ∈ (fadeInRun a).1 → a ≤ v := by
    intro k
    induction k with
    | zero =>
      intro a hk v hv
      rw [fadeInRun] at hv
      have hna : ¬ a < 1000 := by omega
      rw [dif_neg hna] at hv
      simp at hv
    | succ k ih =>
      intro a hk v hv
      rw [fadeInRun] at hv
      split at hv
      · next hlt =>
        simp only [List.mem_cons] at hv
        rcases hv with rfl | hv
        · omega
        · have := ih (a + 8) (by omega) v hv
          omega
      · simp at hv
  exact H 1000 a (by omega) v hv

/-- Claim C6: for every invocation of the fade transition with any target
index, from any entry alpha at or above the transition floor (in particular
the steady-state entry alpha 1.0), the drawn opacities are monotonically
non-increasing during fade-out and monotonically non-decreasing during
fade-in, the drawn opacity never reaches 0 — every frame is at or above the
non-zero floor 0.092, just below the 0.1 threshold — and on completion
`imageCounter` equals the target index. -/
theorem c6_fade_transition (alpha : ℕ) (target : ℤ) (h : 92 ≤ alpha) :
    List.Chain' (fun x y => y ≤ x) ((fadeTransitionRun alpha target).1).1 ∧
    List.Chain' (fun x y => x ≤ y) ((fadeTransitionRun alpha target).1).2 ∧
    (∀ v ∈ ((fadeTransitionRun alpha target).1).1, 92 ≤ v ∧ 0 < v) ∧
    (∀ v ∈ ((fadeTransitionRun alpha target).1).2, 92 ≤ v ∧ 0 < v) ∧
    ((fadeTransitionRun alpha target).2).2 = target := by
  refine ⟨?_, ?_, ?_, ?_, rfl⟩
  · exact fadeOutRun_chain alpha
  · exact fadeInRun_chain (fadeOutRun alpha).2
  · intro v hv
    have := fadeOutRun_mem alpha v hv
    omega
  · intro v hv
    have h1 := fadeInRun_mem (fadeOutRun alpha).2 v hv
    have h2 := fadeOutRun_final alpha h
    omega

/-- Witness for C6: an invocation at full opacity (alpha 1.0) targeting slide
2 completes with `imageCounter = 2`. -/
theorem c6_fade_transition_witness :
    92 ≤ 1000 ∧ ((fadeTransitionRun 1000 2).2).2 = 2 := by
  refine ⟨by decide, ?_⟩
  exact (c6_fade_transition 1000 2 (by decide)).2.2.2.2

/-- Helper: the first tick of the slide loop draws at the entry offset. -/
theorem slideOffsets_head (limit off : ℕ) :
    (slideOffsets limit off).head? = some off := by
  rw [slideOffsets]
  split <;> simp

/-- Helper: the drawn offsets of a slide transition are strictly
increasing. -/
theorem slideOffsets_chain (limit off : ℕ) :
    List.Chain' (fun x y => x < y) (slideOffsets limit off) := by
  have H : ∀ (k off : ℕ), limit - off ≤ k →
      List.Chain' (fun x y => x < y) (slideOffsets limit off) := by
    intro k
    induction k with
    | zero =>
      intro off hk
      rw [slideOffsets]
      have hno : ¬ off + 3 < limit := by omega
      rw [dif_neg hno]
      simp
    | succ k ih =>
      intro off hk
      rw [slideOffsets]
      split
      · next hlt =>
        refine List.chain'_cons'.mpr ⟨?_, ih (off + 3) (by omega)⟩
        intro y hy
        rw [slideOffsets_head] at hy
        simp only [Option.mem_def, Option.some.injEq] at hy
        omega
      · simp
  exact H (limit - off) off (by omega)

/-- Helper: the slide loop draws exactly ceil((limit - off) / 3) frames,
one per tick. -/
theorem slideOffsets_length (limit off : ℕ) (h : off < limit) :
    (slideOffsets limit off).length = (limit - off + 2) / 3 := by
  have H : ∀ (k off : ℕ), limit - off ≤ k → off < limit →
      (slideOffsets limit off).length = (limit - off + 2) / 3 := by
    intro k
    induction k with
    | zero =>
      intro off hk hlt
      omega
    | succ k ih =>
      intro off hk hlt
      rw [slideOffsets]
      split
      · next h3 =>
        simp only [List.length_cons]
        rw [ih (off + 3) (by omega) (by omega)]
        omega
      · next h3 =>
        simp only [List.length_cons, List.length_nil]
        omega
  exact H (limit - off) off (by omega) h

/-- Claim C7 fails on the code for the vertical transition: with forward
movement the outgoing image's y-origin over the ticks of a 6-pixel-high
vertical slide is 0, 3, 6 — strictly increasing (the image is pushed down),
not strictly decreasing as claimed. -/
theorem c7_counterexample :
    verticalOrigins true 6 = [0, 3, 6] ∧
    ¬ List.Chain' (fun x y => y < x) (verticalOrigins true 6) := by
  have h : slideOffsets 9 0 = [0, 3, 6] := by
    rw [slideOffsets]
    norm_num
    rw [slideOffsets]
    norm_num
    rw [slideOffsets]
    norm_num
  have hv : verticalOrigins true 6 = [0, 3, 6] := by
    unfold verticalOrigins verticalOffsets
    rw [h]
    simp
  refine ⟨hv, ?_⟩
  rw [hv]
  simp [List.chain'_cons]

/-- Claim C7 as amended: for every slide-transition invocation, the outgoing
image's origin along the slide axis is strictly monotone tick over tick — for
the horizontal transition strictly decreasing when forward and strictly
increasing when backward, while for the vertical transition the signs are
opposite (forward pushes the outgoing image down, so its y-origin is strictly
increasing; backward strictly decreasing) — and the animation terminates after
exactly ceil((extent + step) / step) ticks, i.e. (extent + 3 + 2) / 3 with
step 3, where extent is the image width (horizontal) or height (vertical). -/
theorem c7_slide_ticks (extent : ℕ) :
    List.Chain' (fun x y => y < x) (horizontalOrigins true extent) ∧
    List.Chain' (fun x y => x < y) (horizontalOrigins false extent) ∧
    List.Chain' (fun x y => x < y) (verticalOrigins true extent) ∧
    List.Chain' (fun x y => y < x) (verticalOrigins false extent) ∧
    (horizontalOffsets extent).length = (extent + 3 + 2) / 3 ∧
    (verticalOffsets extent).length = (extent + 3 + 2) / 3 := by
  have hchain := slideOffsets_chain (extent + 3) 0
  have hlen := slideOffsets_length (extent + 3) 0 (by omega)
  refine ⟨?_, ?_, ?_, ?_, ?_, ?_⟩
  · unfold horizontalOrigins horizontalOffsets
    refine List.chain'_map_of_chain' _ ?_ hchain
    intro a b hab
    show -(b : ℤ) < -(a : ℤ)
    omega
  · unfold horizontalOrigins horizontalOffsets
    refine List.chain'_map_of_chain' _ ?_ hchain
    intro a b hab
    show (a : ℤ) < (b : ℤ)
    omega
  · unfold verticalOrigins verticalOffsets
    refine List.chain'_map_of_chain' _ ?_ hchain
    intro a b hab
    show (a : ℤ) < (b : ℤ)
    omega
  · unfold verticalOrigins verticalOffsets
    refine List.chain'_map_of_chain' _ ?_ hchain
    intro a b hab
    show -(b : ℤ) < -(a : ℤ)
    omega
  · unfold horizontalOffsets
    rw [hlen]
    omega
  · unfold verticalOffsets
    rw [hlen]
    omega

/-- Helper: saves in a concatenated trace add up. -/
theorem countSaves_append (l1 l2 : List CanvasOp) :
    countSaves (l1 ++ l2) = countSaves l1 + countSaves l2 := by
  induction l1 with
  | nil => simp [countSaves]
  | cons h t ih =>
    cases h <;> simp [countSaves, ih] <;> omega

/-- Helper: restores in a concatenated trace add up. -/
theorem countRestores_append (l1 l2 : List CanvasOp) :
    countRestores (l1 ++ l2) = countRestores l1 + countRestores l2 := by
  induction l1 with
  | nil => simp [countRestores]
  | cons h t ih =>
    cases h <;> simp [countRestores, ih] <;> omega

/-- Helper: the tick loop of a slide transition is save/restore balanced. -/
theorem slideLoopOps_balanced (limit off : ℕ) :
    countSaves (slideLoopOps limit off) = countRestores (slideLoopOps limit off) := by
  have H : ∀ (k off : ℕ), limit - off ≤ k →
      countSaves (slideLoopOps limit off) = countRestores (slideLoopOps limit off) := by
    intro k
    induction k with
    | zero =>
      intro off hk
      rw [slideLoopOps]
      have hno : ¬ off + 3 < limit := by omega
      rw [dif_neg hno]
      decide
    | succ k ih =>
      intro off hk
      rw [slideLoopOps]
      split
      · next hlt =>
        rw [countSaves_append, countRestores_append, ih (off + 3) (by omega)]
        have h1 : countSaves slideTickOps = 1 := by decide
        have h2 : countRestores slideTickOps = 1 := by decide
        omega
      · decide
  exact H (limit - off) off (by omega)

/-- Claim C10: every slide-transition invocation (horizontal or vertical)
performs exactly one more save() than restore() on the drawing context: each
animation tick is internally balanced (one save at its start, one restore at
its end), but the initial save() issued before the first tick is never
matched, leaving one extra saved state per completed transition. -/
theorem c10_save_restore (extent : ℕ) :
    countSaves (horizontalTransitionOps extent)
      = countRestores (horizontalTransitionOps extent) + 1 ∧
    countSaves (verticalTransitionOps extent)
      = countRestores (verticalTransitionOps extent) + 1 ∧
    countSaves slideTickOps = 1 ∧
    countRestores slideTickOps = 1 := by
  have hb := slideLoopOps_balanced (extent + 3) 0
  refine ⟨?_, ?_, by decide, by decide⟩
  · unfold horizontalTransitionOps
    simp only [countSaves, countRestores]
    omega
  · unfold verticalTransitionOps
    simp only [countSaves, countRestores]
    omega

/-- Claim C8: `drawSlide` never propagates an exception: for every image
store, every target index (out of range included) and every drawing-time
fault, the call returns normally with `imageCounter` set to the target index,
and when the body faults the fault is converted into a log entry with the
rest of the state untouched — the timer chain is never halted by a bad
frame. -/
theorem c8_drawSlide_total (images : List ImageRec) (drawFault : Bool)
    (st : DrawState) (slide : ℤ) :
    (drawSlide images drawFault st slide).imageCounter = slide ∧
    (∀ e, drawSlideBody images drawFault slide = Except.error e →
       drawSlide images drawFault st slide
         = { st with imageCounter := slide, log := st.log ++ [e] }) := by
  unfold drawSlide
  cases hb : drawSlideBody images drawFault slide <;> simp [hb]

/-- Witness for C8: drawing slide 3 of an empty image store faults inside the
body ("image undefined") yet returns normally with `imageCounter = 3` and the
fault logged. -/
theorem c8_drawSlide_total_witness :
    drawSlideBody [] false 3 = Except.error "image undefined" ∧
    drawSlide [] false ⟨0, Option.none, Option.none, []⟩ 3
      = { imageCounter := 3, canvasImage := Option.none, caption := Option.none,
          log := ["image undefined"] } := by
  refine ⟨rfl, ?_⟩
  exact (c8_drawSlide_total [] false ⟨0, Option.none, Option.none, []⟩ 3).2
    "image undefined" rfl
